import Mathlib

/-!
Verification of the client-side widget script of the portfolio website
(`src/script.js`) against its natural-language specification.

Each JavaScript widget is shallowly embedded as pure Lean functions over
explicit state.  DOM class lists are modelled by `Bool` flags, the body
`overflow` style by a `String`, element lookup by functions into `Option`,
and event-driven behaviour by folding a step function over a list of events.
Time is modelled by `Nat` instants for the debounce utility.
-/

set_option autoImplicit false

namespace PortfolioScript

/-! ### `debounce` (script.js lines 13-23)

`debounce(func, wait)` keeps one pending `setTimeout`.  Every invocation
clears the pending timer and schedules a new one `wait` later; the wrapped
`func` runs only when a timer reaches its deadline without being cleared.

We embed the observable timed semantics: given the (increasing) list of
instants at which the wrapped function is invoked, `debounceRun` returns the
instants at which `func` actually executes.  The state is the deadline of the
pending timer, if any.  A pending timer with deadline `d` fires before the
next invocation at instant `t` iff `d < t`; an invocation arriving at the
deadline instant still finds the callback not yet run and `clearTimeout`
cancels it.  After the last invocation the remaining pending timer fires. -/

def debounceRun (w : Nat) : Option Nat → List Nat → List Nat
  | none, [] => []
  | some d, [] => [d]
  | none, t :: ts => debounceRun w (some (t + w)) ts
  | some d, t :: ts =>
    if d < t then d :: debounceRun w (some (t + w)) ts
    else debounceRun w (some (t + w)) ts

/-- Auxiliary: a pending timer scheduled by an invocation at `t`, followed by
further invocations each strictly later but no later than `w` after the
previous one, fires exactly once, `w` after the last invocation. -/
theorem debounceRun_pending (w : Nat) :
    ∀ (ts : List Nat) (t : Nat),
      List.Chain (fun a b => a < b ∧ b ≤ a + w) t ts →
      debounceRun w (some (t + w)) ts = [ts.getLastD t + w] := by
  intro ts
  induction ts with
  | nil => intro t _; rfl
  | cons t' ts ih =>
    intro t hchain
    rcases List.chain_cons.mp hchain with ⟨⟨_, hle⟩, htail⟩
    have hnot : ¬ t + w < t' := Nat.not_lt.mpr hle
    simp only [debounceRun, if_neg hnot, List.getLastD_cons]
    exact ih t' htail

/-- Claim C1: for every wait duration `w` and every nonempty increasing
sequence of invocation instants in which each invocation occurs within `w`
of the previous one, the underlying callback executes exactly once, `w`
after the last invocation; each invocation resets the pending timer. -/
theorem c1_debounce_fires_once (w t : Nat) (ts : List Nat)
    (hchain : List.Chain (fun a b => a < b ∧ b ≤ a + w) t ts) :
    debounceRun w none (t :: ts) = [(t :: ts).getLastD 0 + w] := by
  simp only [debounceRun, List.getLastD_cons]
  exact debounceRun_pending w ts t hchain

/-- Witness for C1 at `w = 10` and invocations at instants 0, 5, 9:
the callback runs exactly once, at instant 19. -/
theorem c1_witness : debounceRun 10 none [0, 5, 9] = [19] :=
  c1_debounce_fires_once 10 0 [5, 9]
    (List.Chain.cons (by omega) (List.Chain.cons (by omega) List.Chain.nil))

/-! ### `MobileMenu` (script.js lines 29-75)

The widget's observable DOM state: whether the toggle control and the menu
carry the `active` class, and the body's `overflow` style.  Initially both
classes are absent and `overflow` is the empty string.

The four event kinds and their handlers, as wired by `init`:
  * a click on the toggle control runs `toggleMenu` (the document-level click
    listener skips it because `this.toggle.contains(e.target)`);
  * a click on a navigation link runs `closeMenu` (the document-level
    listener skips it because `this.menu.contains(e.target)`);
  * a click outside both menu and toggle runs `closeMenu`;
  * an `Escape` keydown runs `closeMenu`. -/

structure MenuDom where
  toggleActive : Bool
  menuActive : Bool
  bodyOverflow : String
deriving DecidableEq

def menuDomInit : MenuDom :=
  { toggleActive := false, menuActive := false, bodyOverflow := "" }

inductive MenuEvent where
  | toggleClick
  | linkClick
  | outsideClick
  | escapeKey
deriving DecidableEq

def toggleMenu (s : MenuDom) : MenuDom :=
  let t := !s.toggleActive
  let m := !s.menuActive
  { toggleActive := t, menuActive := m,
    bodyOverflow := if m then "hidden" else "" }

def closeMenu (_ : MenuDom) : MenuDom :=
  { toggleActive := false, menuActive := false, bodyOverflow := "" }

def menuStep (s : MenuDom) : MenuEvent → MenuDom
  | .toggleClick => toggleMenu s
  | .linkClick => closeMenu s
  | .outsideClick => closeMenu s
  | .escapeKey => closeMenu s

def menuRun (es : List MenuEvent) : MenuDom :=
  es.foldl menuStep menuDomInit

/-- Modelled from the spec's words (section 4.2), for comparison with the
code: a two-state machine starting CLOSED in which a toggle click flips the
state and each of the other events sends OPEN to CLOSED (and leaves CLOSED
unchanged).  `true` stands for OPEN. -/
def specMenuStep (open_ : Bool) : MenuEvent → Bool
  | .toggleClick => !open_
  | .linkClick => false
  | .outsideClick => false
  | .escapeKey => false

def specMenuRun (es : List MenuEvent) : Bool :=
  es.foldl specMenuStep false

/-- Auxiliary invariant for `MobileMenu`: the toggle and menu classes stay in
sync and the body scroll-lock tracks the menu class, and this is preserved by
every event. -/
theorem menuStep_inv (s : MenuDom)
    (h : s.toggleActive = s.menuActive ∧
      (s.bodyOverflow = "hidden" ↔ s.menuActive = true)) (e : MenuEvent) :
    (menuStep s e).toggleActive = (menuStep s e).menuActive ∧
      ((menuStep s e).bodyOverflow = "hidden" ↔ (menuStep s e).menuActive = true) := by
  cases e <;>
    · simp only [menuStep, toggleMenu, closeMenu]
      cases hm : s.menuActive <;> simp_all

/-- Auxiliary: after any event sequence, the code state satisfies the sync
invariant and its menu class agrees with the spec's state machine. -/
theorem menuRun_foldl_inv (es : List MenuEvent) :
    ∀ (s : MenuDom) (b : Bool),
      s.toggleActive = s.menuActive →
      (s.bodyOverflow = "hidden" ↔ s.menuActive = true) →
      s.menuActive = b →
      (es.foldl menuStep s).toggleActive = (es.foldl menuStep s).menuActive ∧
        ((es.foldl menuStep s).bodyOverflow = "hidden" ↔
          (es.foldl menuStep s).menuActive = true) ∧
        (es.foldl menuStep s).menuActive = es.foldl specMenuStep b := by
  induction es with
  | nil => intro s b h1 h2 h3; exact ⟨h1, h2, h3⟩
  | cons e es ih =>
    intro s b h1 h2 h3
    have hstep := menuStep_inv s ⟨h1, h2⟩ e
    have hagree : (menuStep s e).menuActive = specMenuStep b e := by
      cases e <;> simp [menuStep, toggleMenu, closeMenu, specMenuStep, ← h3]
    exact ih (menuStep s e) (specMenuStep b e) hstep.1 hstep.2 hagree

/-- Claim C2: for every sequence of MobileMenu events starting from the
closed initial state, the menu's open/closed state equals the spec's
two-state machine stepped over the same events, and after every event the
page scroll-lock (`body.style.overflow = "hidden"`) holds iff the menu is
open. -/
theorem c2_mobile_menu_refines_spec (es : List MenuEvent) :
    (menuRun es).menuActive = specMenuRun es ∧
      ((menuRun es).bodyOverflow = "hidden" ↔ (menuRun es).menuActive = true) := by
  have h := menuRun_foldl_inv es menuDomInit false rfl (by simp [menuDomInit]) rfl
  exact ⟨h.2.2, h.2.1⟩

/-! ### `ScrollHeader` (script.js lines 113-131)

Each debounced scroll tick reads `window.scrollY`, adds the `scrolled` class
when it exceeds the threshold 100 and removes it otherwise.  The header's
class is modelled as a `Bool`. -/

def scrollThreshold : Nat := 100

def scrollHeaderTick (scrollY : Nat) (_hadScrolled : Bool) : Bool :=
  if scrollY > scrollThreshold then true else false

/-- Claim C4: after a debounced ScrollHeader tick at scroll offset `s`, the
header carries the `scrolled` class iff `s > 100`; the tick ignores the
previous class state (pure function of `s`) and is idempotent. -/
theorem c4_scroll_header_threshold (s : Nat) (c c' : Bool) :
    (scrollHeaderTick s c = true ↔ s > 100) ∧
      scrollHeaderTick s c = scrollHeaderTick s c' ∧
      scrollHeaderTick s (scrollHeaderTick s c) = scrollHeaderTick s c := by
  simp only [scrollHeaderTick, scrollThreshold]
  by_cases h : s > 100 <;> simp [h]

/-! ### `SmoothScroll` (script.js lines 81-107)

The per-click handler reads the anchor's `href` attribute (`none` models a
null attribute), returns without acting when it is falsy (`null` or the empty
string) or the bare `"#"`, and then evaluates `$(href)`, that is,
`document.querySelector(href)`.  `querySelector` is the browser-provided
lookup: on a syntactically valid selector it returns the first matching
element or null; on an invalid selector (for example `"#1"` — a CSS ID
selector cannot begin with a digit) it throws a `SyntaxError`.  The handler
at script.js:94 wraps it in no try/catch, so that error propagates out of
the click listener.  A document is therefore modelled by which selector
strings are valid together with the `offsetTop` of the first match of each
valid selector, and the handler returns in `Except`: `Except.error` is the
uncaught exception path.  Only when the lookup returns an element does the
handler call `preventDefault` and request a scroll to `offsetTop - 100`. -/

structure Document where
  validSelector : String → Bool
  find : String → Option Int

inductive DomError where
  | syntaxError
deriving DecidableEq

def querySelector (doc : Document) (sel : String) :
    Except DomError (Option Int) :=
  if doc.validSelector sel then .ok (doc.find sel) else .error .syntaxError

structure AnchorClickResult where
  prevented : Bool
  scrollTop : Option Int
deriving DecidableEq

def handleAnchorClick (doc : Document) (href : Option String) :
    Except DomError AnchorClickResult :=
  match href with
  | none => .ok ⟨false, none⟩
  | some h =>
    if h = "" ∨ h = "#" then .ok ⟨false, none⟩
    else
      match querySelector doc h with
      | .error e => .error e
      | .ok (some offsetTop) => .ok ⟨true, some (offsetTop - 100)⟩
      | .ok none => .ok ⟨false, none⟩

/-- Claim C5: a click on an anchor whose `href` begins with `#` (its first
character is `'#'`), is not the bare `#`, and whose selector lookup succeeds
with an element cancels default navigation and requests a scroll to the
target's vertical offset minus 100. -/
theorem c5_smooth_scroll_offset (doc : Document) (h : String)
    (top : Int) (hpre : h.data.head? = some '#') (hne : h ≠ "#")
    (hdom : querySelector doc h = .ok (some top)) :
    handleAnchorClick doc (some h) = .ok ⟨true, some (top - 100)⟩ := by
  have hempty : h ≠ "" := by
    intro he
    subst he
    simp at hpre
  have hcond : ¬ (h = "" ∨ h = "#") := by
    rintro (he | he)
    · exact hempty he
    · exact hne he
  simp only [handleAnchorClick, if_neg hcond, hdom]

/-- Witness for C5: in a document where `#about` is a valid selector matching
an element at offset 250, clicking an anchor with `href = "#about"` prevents
default and targets offset 150. -/
theorem c5_witness :
    handleAnchorClick
        { validSelector := fun s => s == "#about",
          find := fun s => if s == "#about" then some 250 else none }
        (some "#about") = .ok ⟨true, some 150⟩ :=
  c5_smooth_scroll_offset
    { validSelector := fun s => s == "#about",
      find := fun s => if s == "#about" then some 250 else none }
    "#about" 250 (by decide) (by decide) rfl

/-! For C6, the no-op branch of `MobileMenu.init` (script.js lines 37-38):
when the toggle control or the menu element is missing from the document,
`init` returns before binding any listener.  `mobileMenuInit` returns the
widget's initialized DOM state, or `none` when it no-ops. -/

def mobileMenuInit (toggle menu : Option MenuDom) : Option MenuDom :=
  match toggle, menu with
  | some s, some _ => some s
  | _, _ => none

/-- Claim C6 fails on the code: clicking an anchor with `href = "#1"` on a
page with no matching element runs `document.querySelector("#1")` at
script.js:94 with no try/catch, and `"#1"` is an invalid CSS selector (an ID
selector cannot begin with a digit), so the click handler throws an uncaught
`SyntaxError` instead of silently no-opping.  This theorem evaluates the
handler at that failing input — a document that rejects the selector `"#1"`
and contains no matching element — and shows the error propagating. -/
theorem c6_throws_on_invalid_selector :
    handleAnchorClick
        { validSelector := fun s => !(s == "#1"), find := fun _ => none }
        (some "#1") = .error .syntaxError := rfl

/-! ### `ScrollReveal` (script.js lines 137-165)

Elements carrying the `fade-in` class are observed; each observer callback
receives entries and adds the `visible` class to every intersecting entry's
target.  Nothing ever removes the class, and the widget binds no scroll or
resize listener, so those events leave its state unchanged.  Elements are
identified by `Nat` and paired with their `visible` flag; an observer entry
is a target identifier paired with `isIntersecting`. -/

def addVisible (id : Nat) (els : List (Nat × Bool)) : List (Nat × Bool) :=
  els.map (fun el => if el.1 = id then (el.1, true) else el)

def revealCallback (els : List (Nat × Bool)) (entries : List (Nat × Bool)) :
    List (Nat × Bool) :=
  entries.foldl (fun acc e => if e.2 then addVisible e.1 acc else acc) els

inductive RevealEvent where
  | observerCb (entries : List (Nat × Bool))
  | scroll
  | resize

def revealStep (els : List (Nat × Bool)) : RevealEvent → List (Nat × Bool)
  | .observerCb entries => revealCallback els entries
  | .scroll => els
  | .resize => els

def revealRun (els : List (Nat × Bool)) (evs : List RevealEvent) :
    List (Nat × Bool) :=
  evs.foldl revealStep els

/-- Auxiliary: adding the `visible` class to some element never removes it
from another. -/
theorem mem_addVisible (i id : Nat) (els : List (Nat × Bool))
    (h : (i, true) ∈ els) : (i, true) ∈ addVisible id els := by
  refine List.mem_map.mpr ⟨(i, true), h, ?_⟩
  by_cases hi : i = id <;> simp [hi]

/-- Auxiliary: one observer callback preserves every `visible` marking. -/
theorem mem_revealCallback (i : Nat) (entries : List (Nat × Bool)) :
    ∀ (els : List (Nat × Bool)), (i, true) ∈ els →
      (i, true) ∈ revealCallback els entries := by
  induction entries with
  | nil => intro els h; exact h
  | cons e entries ih =>
    intro els h
    simp only [revealCallback, List.foldl_cons]
    by_cases he : e.2 = true
    · simp only [he, if_pos rfl]
      exact ih (addVisible e.1 els) (mem_addVisible i e.1 els h)
    · simp only [Bool.not_eq_true] at he
      simp only [he]
      exact ih els h

/-- Claim C7: once an element carries the `visible` marking, no subsequent
observer callback, scroll event, or resize event removes it: the marked set
grows monotonically. -/
theorem c7_reveal_monotone (i : Nat) (evs : List RevealEvent) :
    ∀ (els : List (Nat × Bool)), (i, true) ∈ els →
      (i, true) ∈ revealRun els evs := by
  induction evs with
  | nil => intro els h; exact h
  | cons ev evs ih =>
    intro els h
    cases ev with
    | observerCb entries =>
      exact ih (revealCallback els entries) (mem_revealCallback i entries els h)
    | scroll => exact ih els h
    | resize => exact ih els h

/-- Witness for C7: element 1, already visible, stays visible across a
callback that reveals element 2, a scroll, and a resize. -/
theorem c7_witness :
    (1, true) ∈ revealRun [(1, true), (2, false)]
      [.observerCb [(2, true)], .scroll, .resize] :=
  c7_reveal_monotone 1 [.observerCb [(2, true)], .scroll, .resize]
    [(1, true), (2, false)] (by simp)

/-! ### `ActiveSectionHighlighter` (script.js lines 288-324)

Navigation links are modelled as pairs of their `href` attribute and their
`active` flag.  `setActiveLink id` visits every link, removes `active`, and
adds it back exactly when the link's `href` equals `"#" ++ id` — so the
resulting flag is `href == "#" ++ id` regardless of the prior flag.

The observer callback walks its entries in order and calls `setActiveLink`
for each intersecting entry; an entry is a section identifier paired with
`isIntersecting`.  A run processes a list of callbacks starting from links
that are all inactive. -/

def setActiveLink (id : String) (links : List (String × Bool)) :
    List (String × Bool) :=
  links.map (fun link => (link.1, link.1 == "#" ++ id))

def highlightEntry (links : List (String × Bool)) (e : String × Bool) :
    List (String × Bool) :=
  if e.2 then setActiveLink e.1 links else links

def highlighterCallback (links : List (String × Bool))
    (entries : List (String × Bool)) : List (String × Bool) :=
  entries.foldl highlightEntry links

def highlighterRun (hrefs : List String)
    (cbs : List (List (String × Bool))) : List (String × Bool) :=
  cbs.foldl highlighterCallback (hrefs.map (fun h => (h, false)))

/-- The identifier of the most recently intersecting section across a list of
observer callbacks, resolving simultaneous intersections within one callback
to the entry that comes last in the callback's entry order. -/
def pickIntersecting (acc : Option String) (e : String × Bool) : Option String :=
  if e.2 then some e.1 else acc

def lastIntersecting (cbs : List (List (String × Bool))) : Option String :=
  cbs.foldl (fun acc entries => entries.foldl pickIntersecting acc) none

/-- The link state determined by an optional most-recent section id. -/
def applyHighlight (o : Option String) (links : List (String × Bool)) :
    List (String × Bool) :=
  match o with
  | none => links
  | some id => setActiveLink id links

/-- Auxiliary: a later `setActiveLink` overwrites an earlier one. -/
theorem setActiveLink_setActiveLink (id j : String)
    (links : List (String × Bool)) :
    setActiveLink id (setActiveLink j links) = setActiveLink id links := by
  simp [setActiveLink, List.map_map]

/-- Auxiliary: one observer callback turns the link state determined by `acc`
into the one determined by folding `pickIntersecting` over its entries. -/
theorem highlighterCallback_applyHighlight (entries : List (String × Bool)) :
    ∀ (acc : Option String) (links : List (String × Bool)),
      highlighterCallback (applyHighlight acc links) entries =
        applyHighlight (entries.foldl pickIntersecting acc) links := by
  induction entries with
  | nil => intro acc links; rfl
  | cons e entries ih =>
    intro acc links
    simp only [highlighterCallback, List.foldl_cons]
    by_cases he : e.2 = true
    · have hstep : highlightEntry (applyHighlight acc links) e =
          applyHighlight (some e.1) links := by
        cases acc with
        | none => simp [highlightEntry, he, applyHighlight]
        | some j =>
          simp [highlightEntry, he, applyHighlight, setActiveLink_setActiveLink]
      rw [hstep]
      have := ih (some e.1) links
      simpa [pickIntersecting, he] using this
    · simp only [Bool.not_eq_true] at he
      have hstep : highlightEntry (applyHighlight acc links) e =
          applyHighlight acc links := by
        simp [highlightEntry, he]
      rw [hstep]
      have := ih acc links
      simpa [pickIntersecting, he] using this

/-- Auxiliary characterization: a whole run leaves the links exactly in the
state determined by the most recently intersecting section, if any. -/
theorem highlighterRun_eq_applyHighlight (cbs : List (List (String × Bool))) :
    ∀ (acc : Option String) (links : List (String × Bool)),
      cbs.foldl highlighterCallback (applyHighlight acc links) =
        applyHighlight
          (cbs.foldl (fun a entries => entries.foldl pickIntersecting a) acc)
          links := by
  induction cbs with
  | nil => intro acc links; rfl
  | cons cb cbs ih =>
    intro acc links
    simp only [List.foldl_cons]
    rw [highlighterCallback_applyHighlight cb acc links]
    exact ih (cb.foldl pickIntersecting acc) links

def countActive (links : List (String × Bool)) : Nat :=
  (links.filter (fun p => p.2)).length

/-- Counterexample to claim C3 as stated: with two navigation links sharing
the `href` `"#a"`, a single callback in which section `a` intersects leaves
both links marked `active`, so more than one link carries the marking. -/
theorem c3_counterexample :
    ¬ countActive (highlighterRun ["#a", "#a"] [[("a", true)]]) ≤ 1 := by
  decide

/-- Claim C3 (amended with the assumption that the navigation links' `href`
attributes are pairwise distinct): after any sequence of observer callbacks
starting from all-inactive links, at most one link carries the `active`
marking, and any link carrying it has the `href` referencing the most
recently intersecting section, where within one callback the entry that
comes last in the callback's entry order wins. -/
theorem c3_at_most_one_active (hrefs : List String) (hnd : hrefs.Nodup)
    (cbs : List (List (String × Bool))) :
    countActive (highlighterRun hrefs cbs) ≤ 1 ∧
      ∀ p ∈ highlighterRun hrefs cbs, p.2 = true →
        ∃ id, lastIntersecting cbs = some id ∧ p.1 = "#" ++ id := by
  have hrun : highlighterRun hrefs cbs =
      applyHighlight (lastIntersecting cbs) (hrefs.map (fun h => (h, false))) :=
    highlighterRun_eq_applyHighlight cbs none (hrefs.map (fun h => (h, false)))
  rw [hrun]
  cases hlast : lastIntersecting cbs with
  | none =>
    constructor
    · simp [applyHighlight, countActive, List.filter_map, Function.comp_def]
    · intro p hp hact
      rcases List.mem_map.mp hp with ⟨h, _, rfl⟩
      simp at hact
  | some id =>
    have hform : applyHighlight (some id) (hrefs.map (fun h => (h, false))) =
        hrefs.map (fun h => (h, h == "#" ++ id)) := by
      simp [applyHighlight, setActiveLink, List.map_map]
    rw [hform]
    constructor
    · have hcount : countActive (hrefs.map (fun h => (h, h == "#" ++ id))) =
          hrefs.count ("#" ++ id) := by
        simp only [countActive, List.filter_map, Function.comp_def,
          List.length_map, List.count, List.countP_eq_length_filter]
      rw [hcount]
      exact List.nodup_iff_count_le_one.mp hnd ("#" ++ id)
    · intro p hp hact
      rcases List.mem_map.mp hp with ⟨h, _, rfl⟩
      simp only at hact
      exact ⟨id, rfl, by simpa [beq_iff_eq] using hact⟩

/-- Witness for C3 (amended): links `#a`, `#b` with distinct hrefs; after one
callback in which both sections intersect (`a` then `b`), at most one link is
active and any active link points to `#b`. -/
theorem c3_witness :
    countActive (highlighterRun ["#a", "#b"] [[("a", true), ("b", true)]]) ≤ 1 ∧
      ∀ p ∈ highlighterRun ["#a", "#b"] [[("a", true), ("b", true)]],
        p.2 = true →
        ∃ id, lastIntersecting [[("a", true), ("b", true)]] = some id ∧
          p.1 = "#" ++ id :=
  c3_at_most_one_active ["#a", "#b"] (by decide) [[("a", true), ("b", true)]]

/-- Claim C10: `setActiveLink id` establishes the postcondition that a link
is `active` iff its `href` equals `"#" ++ id`, regardless of the prior flags,
and it preserves the links' `href`s (so duplicated `href`s are all marked by
the one call). -/
theorem c10_setActiveLink_iff (id : String) (links : List (String × Bool)) :
    (setActiveLink id links).map Prod.fst = links.map Prod.fst ∧
      ∀ p ∈ setActiveLink id links, (p.2 = true ↔ p.1 = "#" ++ id) := by
  constructor
  · simp [setActiveLink, List.map_map, Function.comp_def]
  · intro p hp
    rcases List.mem_map.mp hp with ⟨q, _, rfl⟩
    simp [beq_iff_eq]

/-- Witness for C10: on links with the duplicated `href` `"#a"`, the single
call marks both duplicates active and leaves `#b` inactive; the iff is
instantiated at the first resulting link. -/
theorem c10_witness :
    setActiveLink "a" [("#a", false), ("#a", true), ("#b", true)] =
        [("#a", true), ("#a", true), ("#b", false)] ∧
      ((("#a", true) : String × Bool).2 = true ↔ ("#a", true).1 = "#" ++ "a") :=
  ⟨by decide,
    (c10_setActiveLink_iff "a" [("#a", false), ("#a", true), ("#b", true)]).2
      ("#a", true) (by decide)⟩

/-! ### `TypingEffect` (script.js lines 240-282)

State: word index, char index, deleting flag, and the element's text.  The
char index is an `Int` so that the JavaScript decrement `this.charIndex--`
is embedded without clamping and non-negativity is a real statement.  Each
`type()` tick takes the current word (`words[wordIndex]`, modelled by `getD`
with default `""`), writes `currentWord.substring(0, charIndex ± 1)` (JS
`substring` clamps a negative end to 0, as does `Int.toNat`), updates the
char index, and then: when typing finished the word it sets the deleting
flag; when deleting reached char index 0 it clears the flag and advances to
the next word cyclically. -/

structure TypingState where
  wordIndex : Nat
  charIndex : Int
  isDeleting : Bool
  text : String
deriving DecidableEq

def typingInit : TypingState :=
  { wordIndex := 0, charIndex := 0, isDeleting := false, text := "" }

def typeStep (words : List String) (s : TypingState) : TypingState :=
  let currentWord := words.getD s.wordIndex ""
  if s.isDeleting then
    let ci := s.charIndex - 1
    let text := currentWord.take ci.toNat
    if ci = 0 then
      { wordIndex := (s.wordIndex + 1) % words.length, charIndex := ci,
        isDeleting := false, text := text }
    else
      { s with charIndex := ci, text := text }
  else
    let ci := s.charIndex + 1
    let text := currentWord.take ci.toNat
    if ci = ((words.getD s.wordIndex "").length : Int) then
      { s with charIndex := ci, isDeleting := true, text := text }
    else
      { s with charIndex := ci, text := text }

def typingRun (words : List String) (n : Nat) : TypingState :=
  (typeStep words)^[n] typingInit

/-- Auxiliary: one `type()` tick preserves the invariant that the char index
is non-negative and strictly positive while deleting. -/
theorem typeStep_inv (words : List String) (s : TypingState)
    (h0 : 0 ≤ s.charIndex) (hdel : s.isDeleting = true → 0 < s.charIndex) :
    0 ≤ (typeStep words s).charIndex ∧
      ((typeStep words s).isDeleting = true → 0 < (typeStep words s).charIndex) := by
  simp only [typeStep]
  split_ifs with hd hci hci <;> dsimp only
  · exact ⟨by omega, by simp⟩
  · have hpos := hdel hd
    exact ⟨by omega, fun _ => by omega⟩
  · exact ⟨by omega, fun _ => by omega⟩
  · exact ⟨by omega, fun hc => absurd hc hd⟩

/-- Auxiliary: every state reached from the initial typing state satisfies
the invariant. -/
theorem typingRun_inv (words : List String) (n : Nat) :
    0 ≤ (typingRun words n).charIndex ∧
      ((typingRun words n).isDeleting = true → 0 < (typingRun words n).charIndex) := by
  induction n with
  | zero => exact ⟨le_refl 0, by simp [typingRun, typingInit]⟩
  | succ n ih =>
    simp only [typingRun, Function.iterate_succ_apply'] at ih ⊢
    exact typeStep_inv words _ ih.1 ih.2

/-- Auxiliary: the per-tick char-index equations of `type()`: deleting
decrements, typing increments, and while deleting the flag is cleared
exactly when the new char index is 0. -/
theorem typeStep_charIndex (words : List String) (s : TypingState) :
    (s.isDeleting = true → (typeStep words s).charIndex = s.charIndex - 1) ∧
      (s.isDeleting = false → (typeStep words s).charIndex = s.charIndex + 1) ∧
      (s.isDeleting = true →
        ((typeStep words s).isDeleting = false ↔
          (typeStep words s).charIndex = 0)) := by
  simp only [typeStep]
  split_ifs with hd hci hci <;> dsimp only
  · exact ⟨fun _ => rfl, fun hc => by simp [hd] at hc, fun _ => by simp [hci]⟩
  · exact ⟨fun _ => rfl, fun hc => by simp [hd] at hc,
      fun _ => by simp [hd, hci]⟩
  · exact ⟨fun hc => absurd hc hd, fun _ => rfl, fun hc => absurd hc hd⟩
  · exact ⟨fun hc => absurd hc hd, fun _ => rfl, fun hc => absurd hc hd⟩

/-- Claim C8: for a TypingEffect with a non-empty word list, after any number
of `type()` ticks the char index is never negative; each tick decrements it
only while it is positive (when deleting) and increments it otherwise, and
while deleting the flag is cleared exactly when the char index reaches 0. -/
theorem c8_typing_char_index_nonneg (words : List String) (_hw : words ≠ [])
    (n : Nat) :
    0 ≤ (typingRun words n).charIndex ∧
      ((typingRun words n).isDeleting = true →
        0 < (typingRun words n).charIndex ∧
          (typeStep words (typingRun words n)).charIndex =
            (typingRun words n).charIndex - 1) ∧
      ((typingRun words n).isDeleting = false →
        (typeStep words (typingRun words n)).charIndex =
          (typingRun words n).charIndex + 1) ∧
      ((typingRun words n).isDeleting = true →
        ((typeStep words (typingRun words n)).isDeleting = false ↔
          (typeStep words (typingRun words n)).charIndex = 0)) := by
  obtain ⟨h0, hdel⟩ := typingRun_inv words n
  obtain ⟨e1, e2, e3⟩ := typeStep_charIndex words (typingRun words n)
  exact ⟨h0, fun hd => ⟨hdel hd, e1 hd⟩, e2, e3⟩

/-- Witness for C8 at `words = ["ab"]` after 3 ticks (state: word 0, char
index 1, deleting). -/
theorem c8_witness :
    0 ≤ (typingRun ["ab"] 3).charIndex ∧
      ((typingRun ["ab"] 3).isDeleting = true →
        0 < (typingRun ["ab"] 3).charIndex ∧
          (typeStep ["ab"] (typingRun ["ab"] 3)).charIndex =
            (typingRun ["ab"] 3).charIndex - 1) ∧
      ((typingRun ["ab"] 3).isDeleting = false →
        (typeStep ["ab"] (typingRun ["ab"] 3)).charIndex =
          (typingRun ["ab"] 3).charIndex + 1) ∧
      ((typingRun ["ab"] 3).isDeleting = true →
        ((typeStep ["ab"] (typingRun ["ab"] 3)).isDeleting = false ↔
          (typeStep ["ab"] (typingRun ["ab"] 3)).charIndex = 0)) :=
  c8_typing_char_index_nonneg ["ab"] (by decide) 3

/-! ### Module export surface (script.js lines 431-441)

When `module.exports` is available the script assigns it an object holding
exactly seven of the classes defined in the file; `PerformanceMonitor`,
`Preloader` and `App` are not among them. -/

def moduleExports : List String :=
  ["MobileMenu", "SmoothScroll", "ScrollHeader", "ScrollReveal",
    "CursorTrail", "TypingEffect", "ActiveSectionHighlighter"]

/-- All classes defined in script.js, in source order. -/
def definedClasses : List String :=
  ["MobileMenu", "SmoothScroll", "ScrollHeader", "ScrollReveal",
    "CursorTrail", "TypingEffect", "ActiveSectionHighlighter",
    "PerformanceMonitor", "Preloader", "App"]

/-- Claim C9: the export object contains exactly the constructors
MobileMenu, SmoothScroll, ScrollHeader, ScrollReveal, CursorTrail,
TypingEffect and ActiveSectionHighlighter — each a class defined in the
script — and in particular PerformanceMonitor and Preloader are not
exposed. -/
theorem c9_module_export_surface :
    moduleExports = ["MobileMenu", "SmoothScroll", "ScrollHeader",
        "ScrollReveal", "CursorTrail", "TypingEffect",
        "ActiveSectionHighlighter"] ∧
      moduleExports ⊆ definedClasses ∧
      "PerformanceMonitor" ∉ moduleExports ∧
      "Preloader" ∉ moduleExports ∧
      "App" ∉ moduleExports := by
  refine ⟨rfl, ?_, ?_, ?_, ?_⟩ <;> decide

end PortfolioScript
